import Mathlib

/-!
Shallow embedding of the stroke-capture-and-viewport engine in
`src/components/Canvas.tsx`. State fields keep the source's variable names
(`paths`, `currentPath`, `undoStack`, `redoStack`, `isDrawing`, `isPinching`,
the shared scale/translate values); each gesture callback and imperative
handle becomes a pure state-transition function. Numbers are modelled as ℚ.
-/

namespace Sika

/-- Source: `type Point` with numeric `x`, `y`. -/
structure Point where
  x : ℚ
  y : ℚ
deriving DecidableEq, Repr

/-- Source: the tool union `pen`, `highlighter`, `eraser`. -/
inductive Tool where
  | pen
  | highlighter
  | eraser
deriving DecidableEq, Repr

/-- Source: `type DrawPath` with `points`, `color`, `width`, `type`. -/
structure DrawPath where
  points : List Point
  color : String
  width : ℚ
  type : Tool
deriving DecidableEq, Repr

/-- The component's mutable state: React state (`paths`, `currentPath`,
`backgroundImage`, `tool`), the refs `undoStack`, `redoStack`, `isDrawing`,
`isPinching`, and the shared values for the viewport transform. -/
structure CanvasState where
  paths : List DrawPath
  currentPath : Option DrawPath
  backgroundImage : Option String
  tool : Tool
  undoStack : List DrawPath
  redoStack : List DrawPath
  isDrawing : Bool
  isPinching : Bool
  scale : ℚ
  savedScale : ℚ
  translateX : ℚ
  translateY : ℚ
  savedTranslateX : ℚ
  savedTranslateY : ℚ
deriving DecidableEq, Repr

/-- Source `undo`: if `paths.length > 0`, pop the last path (JS `Array.pop` removes
the tail) and push it onto `undoStack`. -/
def undo (s : CanvasState) : CanvasState :=
  if s.paths.length > 0 then
    match s.paths.getLast? with
    | some removedPath =>
        { s with paths := s.paths.dropLast
                 undoStack := s.undoStack ++ [removedPath] }
    | none => s
  else s

/-- Source `redo`: if `undoStack.length > 0`, pop its last element and append it to
`paths`. (The source's `redo` reads `undoStack`, not `redoStack`.) -/
def redo (s : CanvasState) : CanvasState :=
  if s.undoStack.length > 0 then
    match s.undoStack.getLast? with
    | some pathToRestore =>
        { s with undoStack := s.undoStack.dropLast
                 paths := s.paths ++ [pathToRestore] }
    | none => s
  else s

/-- Source `setTool` (React state setter exposed through the imperative handle). -/
def setTool (s : CanvasState) (t : Tool) : CanvasState :=
  { s with tool := t }

/-- Source `setBackgroundImage` setter exposed through the imperative handle. -/
def setBackgroundImage (s : CanvasState) (uri : Option String) : CanvasState :=
  { s with backgroundImage := uri }

/-- The bounding rect obtained from `getBoundingClientRect` (when available). -/
structure Rect where
  left : ℚ
  top : ℚ
deriving DecidableEq, Repr

/-- Source `getCoordinates(x, y)`: when a bounding rect for the canvas is available,
convert the screen coordinate to logical canvas space and clamp with
`Math.max(0, Math.min(·, SCREEN_WIDTH/HEIGHT))`; otherwise return the raw
input point unchanged. `W`/`H` are `SCREEN_WIDTH`/`SCREEN_HEIGHT`. -/
def getCoordinates (s : CanvasState) (W H : ℚ) (rect : Option Rect)
    (x y : ℚ) : Point :=
  match rect with
  | none => { x := x, y := y }
  | some r =>
      { x := max 0 (min ((x - r.left - s.translateX) / s.scale) W)
        y := max 0 (min ((y - r.top - s.translateY) / s.scale) H) }

/-- Source `drawGesture.onStart(event)`: bail out when `isPinching`; otherwise
set `isDrawing`, convert the event coordinate and create the in-progress path
with the active tool's color, width and type and the single initial point. -/
def drawOnStart (s : CanvasState) (W H : ℚ) (rect : Option Rect)
    (ex ey : ℚ) : CanvasState :=
  if s.isPinching then s
  else
    let s1 := { s with isDrawing := true }
    let point := getCoordinates s1 W H rect ex ey
    let newPath : DrawPath :=
      { points := [point]
        color :=
          if s1.tool = Tool.highlighter then "rgba(255, 255, 0, 0.5)"
          else if s1.tool = Tool.eraser then "white"
          else "black"
        width :=
          if s1.tool = Tool.highlighter then 20
          else if s1.tool = Tool.eraser then 30
          else 2
        type := s1.tool }
    { s1 with currentPath := some newPath }

/-- Source `drawGesture.onUpdate(event)`: bail out when not drawing, no
current path, or pinching; otherwise append the converted point to the
in-progress path (functional update preserving the other fields). -/
def drawOnUpdate (s : CanvasState) (W H : ℚ) (rect : Option Rect)
    (ex ey : ℚ) : CanvasState :=
  if !s.isDrawing || s.currentPath.isNone || s.isPinching then s
  else
    let point := getCoordinates s W H rect ex ey
    match s.currentPath with
    | none => s
    | some prev =>
        { s with currentPath := some { prev with points := prev.points ++ [point] } }

/-- Source `drawGesture.onEnd()`: bail out when not drawing or no current
path; otherwise append the current path to `paths`, clear the current path,
reset `isDrawing` and set `redoStack` to the empty array. -/
def drawOnEnd (s : CanvasState) : CanvasState :=
  if !s.isDrawing || s.currentPath.isNone then s
  else
    match s.currentPath with
    | none => s
    | some cp =>
        { s with paths := s.paths ++ [cp]
                 currentPath := none
                 isDrawing := false
                 redoStack := [] }

/-- Source `drawGesture.onFinalize()`: unconditionally reset `isDrawing` and
clear the current path. -/
def drawOnFinalize (s : CanvasState) : CanvasState :=
  { s with isDrawing := false, currentPath := none }

/-- Source `pinchGesture.onStart()`: set `isPinching` and save the scale. -/
def pinchOnStart (s : CanvasState) : CanvasState :=
  { s with isPinching := true, savedScale := s.scale }

/-- Source `pinchGesture.onUpdate(event)`:
`scale.value = Math.min(Math.max(savedScale.value * event.scale, 0.5), 3)`. -/
def pinchOnUpdate (s : CanvasState) (eventScale : ℚ) : CanvasState :=
  { s with scale := min (max (s.savedScale * eventScale) (1/2)) 3 }

/-- Source `pinchGesture.onEnd()`: reset `isPinching`. -/
def pinchOnEnd (s : CanvasState) : CanvasState :=
  { s with isPinching := false }

/-- Source `panGesture.onStart()`: save the translation. -/
def panOnStart (s : CanvasState) : CanvasState :=
  { s with savedTranslateX := s.translateX, savedTranslateY := s.translateY }

/-- Source `panGesture.onUpdate(event)`: offset the saved translation by the
event's translation. -/
def panOnUpdate (s : CanvasState) (tx ty : ℚ) : CanvasState :=
  { s with translateX := s.savedTranslateX + tx
           translateY := s.savedTranslateY + ty }

/-- Source `panGesture.onEnd()`: clamp the translation to the zoom-dependent
bounds (the `withSpring` settle target, modelled as a direct assignment). -/
def panOnEnd (s : CanvasState) (W H : ℚ) : CanvasState :=
  let maxTranslateX := (s.scale - 1) * W / 2
  let maxTranslateY := (s.scale - 1) * H / 2
  { s with translateX := min (max s.translateX (-maxTranslateX)) maxTranslateX
           translateY := min (max s.translateY (-maxTranslateY)) maxTranslateY }

/-- One pinch-gesture lifecycle event, as delivered to `pinchGesture`. -/
inductive PinchEvent where
  | start
  | update (eventScale : ℚ)
  | release
deriving DecidableEq, Repr

/-- Run a sequence of pinch-gesture events through the pinch handlers. -/
def runPinch (s : CanvasState) : List PinchEvent → CanvasState
  | [] => s
  | PinchEvent.start :: evs => runPinch (pinchOnStart s) evs
  | PinchEvent.update e :: evs => runPinch (pinchOnUpdate s e) evs
  | PinchEvent.release :: evs => runPinch (pinchOnEnd s) evs

/-- The attributes of the rendered `SvgPath` element that the claims speak
about: the `d` command string, `stroke`, `strokeWidth` and `fill`. -/
structure RenderedPath where
  d : String
  stroke : String
  strokeWidth : ℚ
  fill : String
deriving DecidableEq, Repr

/-- Number-to-string conversion used when interpolating coordinates into the
`d` template literal. -/
def qstr (q : ℚ) : String := toString q

/-- Source `renderPath`, the `d` accumulation: `points.reduce` over the
indexed points, index 0 producing the move-to and every later index appending
a line-to. -/
def renderD (points : List Point) : String :=
  points.enum.foldl
    (fun acc ip =>
      if ip.1 = 0 then "M " ++ qstr ip.2.x ++ " " ++ qstr ip.2.y
      else acc ++ " L " ++ qstr ip.2.x ++ " " ++ qstr ip.2.y)
    ""

/-- Source `renderPath(path)`: `null` for an empty point list, otherwise the
`SvgPath` with the accumulated `d`, `stroke=path.color`,
`strokeWidth=path.width / scale.value` and `fill="none"`. -/
def renderPath (scaleValue : ℚ) (path : DrawPath) : Option RenderedPath :=
  if path.points.isEmpty then none
  else
    some { d := renderD path.points
           stroke := path.color
           strokeWidth := path.width / scaleValue
           fill := "none" }

/-! Spec-side definitions, written from the specification's words, to be
compared with the source-derived definitions above. -/

/-- Spec-side line-to commands: one `L` command per point, in order. -/
def specLineTos : List Point → String
  | [] => ""
  | q :: qs => (" L " ++ qstr q.x ++ " " ++ qstr q.y) ++ specLineTos qs

/-- Spec-side polyline: a move-to to the first point followed by a line-to for
each subsequent point in order, with no closing segment. -/
def specPolyline : List Point → String
  | [] => ""
  | p :: rest => ("M " ++ qstr p.x ++ " " ++ qstr p.y) ++ specLineTos rest

/-- Spec-side clamp of a value to the interval from `lo` to `hi`. -/
def specClamp (lo hi v : ℚ) : ℚ := min hi (max lo v)

/-- Spec-side coordinate conversion:
`logical = (screenCoord - canvasOriginOffset - currentTranslate) / currentScale`,
clamped componentwise to the canvas bounds. -/
def specLogicalPoint (originLeft originTop tX tY sc W H x y : ℚ) : Point :=
  { x := specClamp 0 W ((x - originLeft - tX) / sc)
    y := specClamp 0 H ((y - originTop - tY) / sc) }

/-- A convenient fully-determined initial state: the component's state right
after mount (empty history, pen tool, identity transform). -/
def initState : CanvasState :=
  { paths := []
    currentPath := none
    backgroundImage := none
    tool := Tool.pen
    undoStack := []
    redoStack := []
    isDrawing := false
    isPinching := false
    scale := 1
    savedScale := 1
    translateX := 0
    translateY := 0
    savedTranslateX := 0
    savedTranslateY := 0 }

/-- The stroke committed by drawing a single-point pen stroke at (1, 1). -/
def strokeA : DrawPath :=
  { points := [⟨1, 1⟩], color := "black", width := 2, type := Tool.pen }

/-- The stroke committed by drawing a single-point pen stroke at (2, 2). -/
def strokeB : DrawPath :=
  { points := [⟨2, 2⟩], color := "black", width := 2, type := Tool.pen }

/-- State after: draw stroke A, commit it, then `undo()`. -/
def afterUndoA : CanvasState :=
  undo (drawOnEnd (drawOnStart initState 100 100 none 1 1))

/-- State after additionally drawing and committing the new stroke B. -/
def afterNewB : CanvasState :=
  drawOnEnd (drawOnStart afterUndoA 100 100 none 2 2)

/-- The single-point pen stroke at (5, 5). -/
def strokeFive : DrawPath :=
  { points := [⟨5, 5⟩], color := "black", width := 2, type := Tool.pen }

/-- State where a pinch became active while a draw was in progress. -/
def pinchedMidStroke : CanvasState :=
  pinchOnStart (drawOnStart initState 100 100 none 5 5)

theorem runPinch_append (s : CanvasState) (l1 l2 : List PinchEvent) :
    runPinch s (l1 ++ l2) = runPinch (runPinch s l1) l2 := by
  induction l1 generalizing s with
  | nil => rfl
  | cons ev evs ih => cases ev <;> simp [runPinch, ih]

/-- C4: after any sequence of pinch-gesture events whose last event is an
update — any start/update values, any initial state — the viewport scale
satisfies `1/2 ≤ scale ≤ 3`. -/
theorem pinch_scale_clamped (s : CanvasState) (evs : List PinchEvent) (e : ℚ) :
    1/2 ≤ (runPinch s (evs ++ [PinchEvent.update e])).scale ∧
      (runPinch s (evs ++ [PinchEvent.update e])).scale ≤ 3 := by
  rw [runPinch_append]
  refine ⟨le_min (le_max_right _ _) (by norm_num), min_le_right _ _⟩

/-- C10: after every finalize event of the draw gesture, regardless of the
state it fires in (so in particular whether or not end ran first), the
current path is `none` and the drawing flag is `false`. -/
theorem finalize_clears (s : CanvasState) :
    (drawOnFinalize s).currentPath = none ∧ (drawOnFinalize s).isDrawing = false :=
  ⟨rfl, rfl⟩

/-- C5: `undo()` with an empty committed-stroke list and `redo()` with an
empty redo buffer each leave the entire state unchanged (and, being total
functions, raise no error). -/
theorem invalid_ops_noop (s : CanvasState) :
    (s.paths = [] → undo s = s) ∧ (s.undoStack = [] → redo s = s) := by
  constructor <;> intro h <;> simp [undo, redo, h]

theorem invalid_ops_noop_witness :
    undo initState = initState ∧ redo initState = initState :=
  ⟨(invalid_ops_noop initState).1 rfl, (invalid_ops_noop initState).2 rfl⟩

/-- C3: for every state with non-empty committed strokes, `undo()` followed
immediately by `redo()` restores the whole state — in particular the
committed strokes, with the removed stroke back at the tail with identical
points, color, width and type. -/
theorem undo_redo_roundtrip (s : CanvasState) (h : s.paths ≠ []) :
    redo (undo s) = s := by
  obtain ⟨paths, cur, bg, tool, us, rs, d, p, sc, ssc, tx, ty, stx, sty⟩ := s
  rcases List.eq_nil_or_concat paths with rfl | ⟨L, b, rfl⟩
  · exact absurd rfl h
  · simp [undo, redo, List.concat_eq_append, List.getLast?_concat,
      List.dropLast_concat]

theorem undo_redo_roundtrip_witness :
    (drawOnEnd (drawOnStart initState 100 100 none 5 5)).paths ≠ [] ∧
      redo (undo (drawOnEnd (drawOnStart initState 100 100 none 5 5)))
        = drawOnEnd (drawOnStart initState 100 100 none 5 5) :=
  ⟨by simp [drawOnEnd, drawOnStart, initState, getCoordinates],
   undo_redo_roundtrip _ (by simp [drawOnEnd, drawOnStart, initState, getCoordinates])⟩

/-- C6: a draw-gesture start that is not suppressed by pinching creates the
in-progress stroke with exactly one initial point (the converted event
coordinate) and the active tool's fixed style: pen is black width 2,
highlighter is 50%-alpha yellow width 20, eraser is white width 30. -/
theorem draw_start_style (s : CanvasState) (W H : ℚ) (rect : Option Rect)
    (ex ey : ℚ) (h : s.isPinching = false) :
    (drawOnStart s W H rect ex ey).currentPath =
      some { points := [getCoordinates s W H rect ex ey]
             color := match s.tool with
               | Tool.pen => "black"
               | Tool.highlighter => "rgba(255, 255, 0, 0.5)"
               | Tool.eraser => "white"
             width := match s.tool with
               | Tool.pen => 2
               | Tool.highlighter => 20
               | Tool.eraser => 30
             type := s.tool } := by
  cases htool : s.tool <;> simp [drawOnStart, h, htool, getCoordinates]

theorem draw_start_style_witness :
    initState.isPinching = false ∧
    (drawOnStart initState 100 100 none 5 5).currentPath =
      some { points := [getCoordinates initState 100 100 none 5 5]
             color := match initState.tool with
               | Tool.pen => "black"
               | Tool.highlighter => "rgba(255, 255, 0, 0.5)"
               | Tool.eraser => "white"
             width := match initState.tool with
               | Tool.pen => 2
               | Tool.highlighter => 20
               | Tool.eraser => 30
             type := initState.tool } :=
  ⟨rfl, draw_start_style initState 100 100 none 5 5 rfl⟩

/-- C7: changing the tool while a stroke is in progress leaves the
in-progress stroke untouched, and any subsequent point append preserves its
original color, width and type. -/
theorem tool_isolation (s : CanvasState) (t : Tool) (cp : DrawPath)
    (W H : ℚ) (rect : Option Rect) (ex ey : ℚ)
    (h : s.currentPath = some cp) :
    (setTool s t).currentPath = some cp ∧
      ∀ q, (drawOnUpdate (setTool s t) W H rect ex ey).currentPath = some q →
        q.color = cp.color ∧ q.width = cp.width ∧ q.type = cp.type := by
  refine ⟨by simp [setTool, h], fun q hq => ?_⟩
  rw [drawOnUpdate] at hq
  split at hq
  · simp [setTool, h] at hq
    subst hq; exact ⟨rfl, rfl, rfl⟩
  · simp [setTool, h] at hq
    subst hq; exact ⟨rfl, rfl, rfl⟩

theorem tool_isolation_witness :
    (drawOnStart initState 100 100 none 5 5).currentPath = some strokeFive ∧
    ((setTool (drawOnStart initState 100 100 none 5 5) Tool.eraser).currentPath
        = some strokeFive ∧
      ∀ q, (drawOnUpdate (setTool (drawOnStart initState 100 100 none 5 5) Tool.eraser)
              100 100 none 6 6).currentPath = some q →
        q.color = strokeFive.color ∧ q.width = strokeFive.width ∧
          q.type = strokeFive.type) :=
  ⟨rfl, tool_isolation _ Tool.eraser strokeFive 100 100 none 6 6 rfl⟩

/-- C9: with nonnegative canvas bounds, coordinate conversion returns the raw
input unchanged when no bounding rect is available, and otherwise the formula
`(screen - origin - translate) / scale` clamped componentwise to the canvas
bounds. -/
theorem coordinates_spec (s : CanvasState) (W H x y : ℚ)
    (hW : 0 ≤ W) (hH : 0 ≤ H) :
    getCoordinates s W H none x y = { x := x, y := y } ∧
      ∀ r : Rect, getCoordinates s W H (some r) x y =
        specLogicalPoint r.left r.top s.translateX s.translateY s.scale W H x y := by
  refine ⟨rfl, fun r => ?_⟩
  have hx : max 0 (min ((x - r.left - s.translateX) / s.scale) W)
      = specClamp 0 W ((x - r.left - s.translateX) / s.scale) := by
    rw [specClamp, max_min_distrib_left, max_eq_right hW, min_comm]
  have hy : max 0 (min ((y - r.top - s.translateY) / s.scale) H)
      = specClamp 0 H ((y - r.top - s.translateY) / s.scale) := by
    rw [specClamp, max_min_distrib_left, max_eq_right hH, min_comm]
  simp [getCoordinates, specLogicalPoint, hx, hy]

theorem coordinates_spec_witness :
    (0:ℚ) ≤ 100 ∧
    (getCoordinates initState 100 100 none 7 8 = { x := 7, y := 8 } ∧
      ∀ r : Rect, getCoordinates initState 100 100 (some r) 7 8 =
        specLogicalPoint r.left r.top initState.translateX initState.translateY
          initState.scale 100 100 7 8) :=
  ⟨by norm_num, coordinates_spec initState 100 100 7 8 (by norm_num) (by norm_num)⟩

theorem renderD_foldl_enumFrom (rest : List Point) (n : ℕ) (acc : String) :
    (List.enumFrom (n+1) rest).foldl
      (fun a ip =>
        if ip.1 = 0 then "M " ++ qstr ip.2.x ++ " " ++ qstr ip.2.y
        else a ++ " L " ++ qstr ip.2.x ++ " " ++ qstr ip.2.y)
      acc
    = acc ++ specLineTos rest := by
  induction rest generalizing n acc with
  | nil => simp [List.enumFrom, specLineTos, String.append_empty]
  | cons q qs ih =>
      simp only [List.enumFrom, List.foldl, specLineTos]
      rw [if_neg (by simp)]
      rw [ih (n+1)]
      simp [String.append_assoc]

theorem renderD_spec (p : Point) (ps : List Point) :
    renderD (p :: ps) = specPolyline (p :: ps) := by
  show (List.enumFrom 1 ps).foldl _ (if (0:ℕ) = 0 then _ else _) = _
  rw [if_pos rfl, renderD_foldl_enumFrom ps 0]
  simp [specPolyline, String.append_assoc]

/-- C8: a stroke with a non-empty point list renders to the polyline command
string (move-to first point, line-to each subsequent point in order, no
closing segment), with `fill="none"` and stroke width equal to
`width / currentScale`. -/
theorem render_projection (sc : ℚ) (path : DrawPath) (h : path.points ≠ []) :
    renderPath sc path =
      some { d := specPolyline path.points
             stroke := path.color
             strokeWidth := path.width / sc
             fill := "none" } := by
  obtain ⟨points, color, width, ty⟩ := path
  cases points with
  | nil => exact absurd rfl h
  | cons p ps => simp [renderPath, renderD_spec]

theorem render_projection_witness :
    (DrawPath.mk [⟨1,2⟩, ⟨3,4⟩] "black" 2 Tool.pen).points ≠ [] ∧
    renderPath 2 (DrawPath.mk [⟨1,2⟩, ⟨3,4⟩] "black" 2 Tool.pen) =
      some { d := specPolyline (DrawPath.mk [⟨1,2⟩, ⟨3,4⟩] "black" 2 Tool.pen).points
             stroke := "black"
             strokeWidth := 2 / 2
             fill := "none" } :=
  ⟨by simp, render_projection 2 _ (by simp)⟩

/-- C1: the claimed redo invalidation fails on the code. After committing
stroke A, undoing it, and committing the new stroke B, `redo()` is not a
no-op: it restores A, because committing clears the unused `redoStack`
variable while `redo` pops from `undoStack`, which is never cleared. -/
theorem redo_after_new_stroke_restores :
    afterNewB.paths = [strokeB] ∧
    afterNewB.undoStack = [strokeA] ∧
    (redo afterNewB).paths = [strokeB, strokeA] :=
  ⟨rfl, rfl, rfl⟩

/-- C2 counterexample: with a pinch active over an in-progress stroke, the
draw gesture's end event still commits the stroke to the committed list, so
the in-progress stroke is not "never appended". -/
theorem pinch_midstroke_still_commits :
    pinchedMidStroke.isPinching = true ∧
    pinchedMidStroke.currentPath = some ⟨[⟨5, 5⟩], "black", 2, Tool.pen⟩ ∧
    (drawOnEnd pinchedMidStroke).paths = [⟨[⟨5, 5⟩], "black", 2, Tool.pen⟩] :=
  ⟨rfl, rfl, rfl⟩

/-- C2 amended: while a pinch is active over an in-progress stroke, draw
updates are suppressed (no further points are appended), a finalize without
end discards the stroke, but if the draw gesture's end event fires the
in-progress stroke is committed. -/
theorem pinch_suppresses_updates (s : CanvasState) (W H : ℚ)
    (rect : Option Rect) (ex ey : ℚ) (cp : DrawPath)
    (hp : s.isPinching = true) (hd : s.isDrawing = true)
    (hc : s.currentPath = some cp) :
    drawOnUpdate s W H rect ex ey = s ∧
    (drawOnFinalize s).currentPath = none ∧
    (drawOnFinalize s).isDrawing = false ∧
    (drawOnEnd s).paths = s.paths ++ [cp] := by
  refine ⟨?_, rfl, rfl, ?_⟩
  · simp [drawOnUpdate, hp]
  · simp [drawOnEnd, hd, hc]

theorem pinch_suppresses_updates_witness :
    (pinchedMidStroke.isPinching = true ∧ pinchedMidStroke.isDrawing = true ∧
      pinchedMidStroke.currentPath = some strokeFive) ∧
    drawOnUpdate pinchedMidStroke 100 100 none 6 6 = pinchedMidStroke ∧
    (drawOnFinalize pinchedMidStroke).currentPath = none ∧
    (drawOnFinalize pinchedMidStroke).isDrawing = false ∧
    (drawOnEnd pinchedMidStroke).paths = pinchedMidStroke.paths ++ [strokeFive] :=
  ⟨⟨rfl, rfl, rfl⟩,
   pinch_suppresses_updates pinchedMidStroke 100 100 none 6 6 strokeFive rfl rfl rfl⟩

end Sika
